import Mathlib

/-!
# A shallow embedding of the quokka deployment controller

This file embeds the deployment controller of `src/deploy.js` in Lean.
The external backends (the identity service, the object store and the
stack-provisioning service) are modelled by an environment record that
fixes, in program order, the result of every call the driver may issue;
each driver then becomes a pure function from that environment to an
outcome together with the ordered trace of backend calls it issued.
Polling loops receive the finite list of observations the backend would
produce; an exhausted list models a poll that never terminates.
-/

deriving instance DecidableEq for Except

namespace Quokka

/-- Constant stackName of deploy.js (field of Consts). -/
def stackNameConst : String := "Quokka"

/-- Constant awsRegion of deploy.js (field of Consts). -/
def awsRegion : String := "us-east-1"

/-- Constant installerPolicyName of deploy.js (field of Consts). -/
def installerPolicyName : String := "QuokkaInstallerPolicy"

/-- One entry of the Outputs array of a stack descriptor. -/
structure Output where
  OutputKey : String
  OutputValue : String
  Description : Option String
deriving DecidableEq, Repr

/-- A stack descriptor, as `describeStacks` returns it (`result.Stacks[0]`). -/
structure Stack where
  StackId : String
  StackName : String
  StackStatus : String
  CreationTime : String
  Outputs : List Output
deriving DecidableEq, Repr

/-- A JavaScript `Resource` value: a single string or an array of strings. -/
inductive RVal where
  | one (s : String)
  | many (l : List String)
deriving DecidableEq, Repr

/-- JavaScript truthiness of the optional `Resource` field, as tested by
`if (statement.Resource)`: `undefined` and the empty string are falsy,
every other string and any array (even empty) is truthy. -/
def jsTruthy : Option RVal → Bool
  | none => false
  | some (.one s) => decide (s ≠ "")
  | some (.many _) => true

/-- A statement of the installer policy template. -/
structure Statement where
  Effect : String
  Action : List String
  Resource : Option RVal
deriving DecidableEq, Repr

/-- The parsed `installer-policy.json`. -/
structure Policy where
  Statement : List Statement
deriving DecidableEq, Repr

/-- Embedding of action.substring(0, action.indexOf( colon )): the characters before the
first `:`; when the action has no `:`, JavaScript computes
`substring(0, -1) = ""`. -/
def serviceOf (a : String) : String :=
  if a.data.contains ':' then ⟨a.data.takeWhile (fun c => c != ':')⟩ else ""

/-- Insertion into a JavaScript `Set`, and likewise the
`resources.indexOf(arn) == -1` guard: append when absent, keeping
first-insertion order. -/
def insertUniq (l : List String) (x : String) : List String :=
  if x ∈ l then l else l ++ [x]

/-- Constant regionalServices of deploy.js: services whose scope omits the
region segment. -/
def regionalServices : List String := ["s3", "iam"]

/-- Constant accountServices of deploy.js: services whose scope omits the
account segment. -/
def accountServices : List String := ["s3", "apigateway"]

/-- The template literal building one restricted-access resource:
`arn:aws:service:region:account-id:*`, with
`regionSpecific = regionalServices.indexOf(service) == -1` and
`usesAccountId = accountServices.indexOf(service) == -1`. -/
def arnFor (accountId region service : String) : String :=
  "arn:aws:" ++ service ++ ":" ++ (if service ∉ regionalServices then region else "")
    ++ ":" ++ (if service ∉ accountServices then accountId else "") ++ ":*"

/-- The body of the synthesis loop of `installQuokka` for one statement:
the (possibly rewritten) statement together with the actions this
statement contributes to the `requestedActions` set. A statement with a
truthy `Resource` is skipped (`continue`); a statement whose `Action`
list is empty yields an empty service set and is left unwritten. -/
def synthStatement (accountId region : String) (st : Statement) : Statement × List String :=
  if jsTruthy st.Resource then (st, [])
  else
    let services := st.Action.foldl (fun accum a => insertUniq accum (serviceOf a)) []
    if services.isEmpty then (st, st.Action)
    else
      let resources := services.foldl (fun accum s => insertUniq accum (arnFor accountId region s)) []
      ({ st with Resource := some (match resources with
          | [r] => .one r
          | rs => .many rs) }, st.Action)

/-- The synthesis pass of `installQuokka`: rewrite every statement and
accumulate the deduplicated `requestedActions` set in insertion order. -/
def synthesize (accountId region : String) (p : Policy) : Policy × List String :=
  let r := p.Statement.foldl
    (fun accum st =>
      let s := synthStatement accountId region st
      (accum.1 ++ [s.1], s.2.foldl insertUniq accum.2))
    ([], [])
  (⟨r.1⟩, r.2)

/-- The `Action` field of a statement of the fetched policy: an array,
a plain string, or anything else. -/
inductive ActionField where
  | arr (l : List String)
  | str (s : String)
  | other
deriving DecidableEq, Repr

/-- A statement of the policy read back by `getUserPolicy`. -/
structure FetchedStatement where
  Action : ActionField
deriving DecidableEq, Repr

/-- The policy read back by `getUserPolicy`, after parsing. -/
structure FetchedPolicy where
  Statement : List FetchedStatement
deriving DecidableEq, Repr

/-- The actions a fetched statement grants: the array itself, a singleton
for a plain string, nothing otherwise (the loop `continue`s). -/
def grantedOf : ActionField → List String
  | .arr l => l
  | .str s => [s]
  | .other => []

/-- The verification loop of `installQuokka`: delete from
`requestedActions` every action granted by the fetched policy; the
remaining list is what the installer reports as missing. -/
def missingActions (requested : List String) (sts : List FetchedStatement) : List String :=
  sts.foldl (fun req st => req.filter (fun a => decide (a ∉ grantedOf st.Action))) requested

/-- The backend calls and local observable actions the drivers issue,
in program order. -/
inductive Effect where
  | putUserPolicy
  | logPolicyError
  | getUserPolicy
  | logMissingActions
  | describeStacks
  | headBucket
  | createBucket
  | npmPack
  | packLambda
  | unlink
  | putObjectLambda
  | putObjectTemplate
  | validateTemplate
  | createStack
  | writeRecord
deriving DecidableEq, Repr

/-- Result of `installQuokka`: the early-return on a successful describe
probe, a normal completion carrying the final stack descriptor, a thrown
error, or an unterminated polling loop. -/
inductive InstallOutcome where
  | alreadyInstalled (stack : Stack)
  | ok (stack : Stack)
  | err (msg : String)
  | diverge
deriving DecidableEq, Repr

/-- Result of `uninstallQuokka`. -/
inductive UninstallOutcome where
  | notFound
  | ok (final : Stack)
  | err (msg : String)
  | diverge
deriving DecidableEq, Repr

/-- The environment of one `installQuokka` invocation: the parsed inputs
and the result of each backend call the driver may issue, in program
order. -/
structure InstallEnv where
  accountId : String
  userName : String
  policy : Policy
  putPolicyResult : Except String Unit
  getPolicyResults : List (Except String FetchedPolicy)
  describeStack : Except String Stack
  headBucket : Except String Unit
  createBucket : Except String Unit
  npmPack : Except String Unit
  packResult : Except String Unit
  unlinkResult : Except String Unit
  uploadLambda : Except String Unit
  uploadTemplate : Except String Unit
  validateResult : Except String Unit
  createStackResult : Except String String
  polls : List Stack

/-- The `getUserPolicy` retry loop: one call per listed backend result,
stopping at the first successful read; `none` models a loop that never
observed a success. -/
def pollPolicy : List (Except String FetchedPolicy) → Option FetchedPolicy × List Effect
  | [] => (none, [])
  | .ok fp :: _ => (some fp, [.getUserPolicy])
  | .error _ :: rest =>
    let r := pollPolicy rest
    (r.1, .getUserPolicy :: r.2)

/-- Embedding of waitForStackStatus: poll describeStacks until the observed status
differs from the given in-progress value and return that descriptor;
`none` models a poll that never left the in-progress status. -/
def waitForStackStatus (polls : List Stack) (status : String) : Option Stack :=
  polls.find? (fun s => decide (s.StackStatus ≠ status))

/-- The staging-bucket step: probe with `headBucket`; on any probe error,
fall through to `createBucket` (whose failure is unhandled and thrown). -/
def bucketStep (env : InstallEnv) : Except String Unit × List Effect :=
  match env.headBucket with
  | .ok _ => (.ok (), [.headBucket])
  | .error _ => (env.createBucket, [.headBucket, .createBucket])

/-- The Promise.all over the two putObject calls: both are issued, and the
step fails when either upload fails. -/
def uploadsResult (env : InstallEnv) : Except String Unit :=
  match env.uploadLambda, env.uploadTemplate with
  | .error e, _ => .error e
  | .ok _, .error e => .error e
  | .ok _, .ok _ => .ok ()

/-- Sequence one fallible step: record its effects, propagate a thrown
error, otherwise continue. -/
def andThen (res : Except String Unit) (eff : List Effect) (tr : List Effect)
    (k : List Effect → InstallOutcome × List Effect) : InstallOutcome × List Effect :=
  match res with
  | .error e => (.err e, tr ++ eff)
  | .ok _ => k (tr ++ eff)

/-- The creation path of `installQuokka`, taken when the describe probe
fails: ensure the staging bucket, pack the code, delete the local
archive, upload both artifacts, validate the template, create the stack,
poll to a terminal status, and persist `quokka.json` only when the final
status is `CREATE_COMPLETE`. -/
def creationPath (env : InstallEnv) (tr : List Effect) : InstallOutcome × List Effect :=
  andThen (bucketStep env).1 (bucketStep env).2 tr fun tr =>
  andThen env.npmPack [.npmPack] tr fun tr =>
  andThen env.packResult [.packLambda] tr fun tr =>
  andThen env.unlinkResult [.unlink] tr fun tr =>
  andThen (uploadsResult env) [.putObjectLambda, .putObjectTemplate] tr fun tr =>
  andThen env.validateResult [.validateTemplate] tr fun tr =>
  andThen (env.createStackResult.map fun _ => ()) [.createStack] tr fun tr =>
  match waitForStackStatus env.polls "CREATE_IN_PROGRESS" with
  | none => (.diverge, tr)
  | some stack =>
    if stack.StackStatus ≠ "CREATE_COMPLETE" then (.err "CloudFormation not created", tr)
    else (.ok stack, tr ++ [.writeRecord])

/-- The effects of the policy phase: the `putUserPolicy` call (with its
error logged when the write is rejected) followed by the `getUserPolicy`
retry loop. -/
def policyTrace (env : InstallEnv) : List Effect :=
  (match env.putPolicyResult with
    | .ok _ => [Effect.putUserPolicy]
    | .error _ => [Effect.putUserPolicy, Effect.logPolicyError])
  ++ (pollPolicy env.getPolicyResults).2

/-- The trace accumulated up to and including the describe probe: the
policy phase, the missing-actions log (emitted exactly when the set
difference between requested and granted actions is non-empty), and the
probe itself. -/
def preTrace (env : InstallEnv) (fp : FetchedPolicy) : List Effect :=
  policyTrace env
    ++ (if (missingActions (synthesize env.accountId awsRegion env.policy).2
          fp.Statement).isEmpty then [] else [Effect.logMissingActions])
    ++ [Effect.describeStacks]

/-- Embedding of installQuokka as a function of the backend environment: synthesize
the policy, put it (a rejected write is only logged), poll `getUserPolicy`
until readable, log any missing actions and continue, probe for an
existing stack — short-circuiting on success — and otherwise run the
creation path. -/
def installQuokka (env : InstallEnv) : InstallOutcome × List Effect :=
  match (pollPolicy env.getPolicyResults).1 with
  | none => (.diverge, policyTrace env)
  | some fp =>
    match env.describeStack with
    | .ok stack => (.alreadyInstalled stack, preTrace env fp)
    | .error _ => creationPath env (preTrace env fp)

/-- The environment of one `uninstallQuokka` invocation. -/
structure UninstallEnv where
  describeStack : Except String Stack
  deleteResult : Except String Unit
  polls : List Stack

/-- Embedding of uninstallQuokka: describe (absent means nothing to do), delete,
poll until the status leaves `DELETE_IN_PROGRESS`. The final check reads
`stack.StackStatus` from the descriptor fetched before `deleteStack`,
not from the descriptor the poll returned. -/
def uninstallQuokka (env : UninstallEnv) : UninstallOutcome :=
  match env.describeStack with
  | .error _ => .notFound
  | .ok stack =>
    match env.deleteResult with
    | .error e => .err e
    | .ok _ =>
      match waitForStackStatus env.polls "DELETE_IN_PROGRESS" with
      | none => .diverge
      | some final =>
        if stack.StackStatus ≠ "DELETE_COMPLETE" then .err "CloudFormation not deleted"
        else .ok final

/-! ## Claim-side definitions

These follow the words of the specification for the resource-scope
derivation, to be compared with the definitions above taken from the
source. -/

/-- Claim-side service namespace: the text before the first `:` of the
action identifier. -/
def specServiceOf (a : String) : String := ⟨a.data.takeWhile (fun c => c != ':')⟩

/-- Claim-side region-omitted service set. -/
def specRegionOmitted : List String := ["s3", "iam"]

/-- Claim-side account-omitted service set. -/
def specAccountOmitted : List String := ["s3", "apigateway"]

/-- Claim-side candidate scope `arn:aws:service:region:account:*`: the
region segment is empty exactly when the service is region-omitted, the
account segment is empty exactly when the service is account-omitted. -/
def specArn (accountId region service : String) : String :=
  "arn:aws:" ++ service ++ ":" ++ (if service ∈ specRegionOmitted then "" else region)
    ++ ":" ++ (if service ∈ specAccountOmitted then "" else accountId) ++ ":*"

/-- Deduplication keeping the first occurrence of every element. -/
def distinctKeepFirst : List String → List String
  | [] => []
  | x :: xs => x :: (distinctKeepFirst xs).filter (fun y => decide (y ≠ x))

/-- Claim-side scope of a statement: the deduplicated candidate scopes
over its distinct service namespaces, a scalar when exactly one
remains, the full list otherwise. -/
def specScope (accountId region : String) (actions : List String) : Option RVal :=
  match distinctKeepFirst ((distinctKeepFirst (actions.map specServiceOf)).map
      (specArn accountId region)) with
  | [] => none
  | [r] => some (.one r)
  | rs => some (.many rs)

/-! ## Helper lemmas -/

theorem insertUniq_of_mem {l : List String} {x : String} (h : x ∈ l) :
    insertUniq l x = l := by
  simp [insertUniq, h]

theorem insertUniq_of_not_mem {l : List String} {x : String} (h : x ∉ l) :
    insertUniq l x = l ++ [x] := by
  simp [insertUniq, h]

/-- Folding `Set`-style insertion over a list deduplicates it keeping
first occurrences, relative to what the accumulator already holds. -/
theorem foldl_insertUniq (l : List String) : ∀ acc : List String,
    l.foldl insertUniq acc
      = acc ++ (distinctKeepFirst l).filter (fun y => decide (y ∉ acc)) := by
  induction l with
  | nil => intro acc; simp [distinctKeepFirst]
  | cons x xs ih =>
    intro acc
    rw [List.foldl_cons, ih]
    by_cases hx : x ∈ acc
    · rw [insertUniq_of_mem hx]
      simp only [distinctKeepFirst, List.filter_cons]
      have hxf : (decide (x ∉ acc)) = false := by simp [hx]
      rw [hxf]
      simp only [Bool.false_eq_true, if_false, List.filter_filter]
      congr 1
      apply List.filter_congr
      intro y _
      by_cases hy : y ∈ acc
      · simp [hy]
      · have hyx : y ≠ x := fun h => hy (h ▸ hx)
        simp [hy, hyx]
    · rw [insertUniq_of_not_mem hx]
      simp only [distinctKeepFirst, List.filter_cons]
      have hxt : (decide (x ∉ acc)) = true := by simp [hx]
      rw [hxt]
      simp only [if_true, List.filter_filter, List.append_assoc, List.cons_append,
        List.nil_append]
      congr 2
      apply List.filter_congr
      intro y _
      by_cases hy : y ∈ acc
      · simp [hy]
      · by_cases hyx : y = x
        · simp [hyx, hy]
        · simp [hy, hyx, List.mem_append]

theorem foldl_insertUniq_nil (l : List String) :
    l.foldl insertUniq [] = distinctKeepFirst l := by
  rw [foldl_insertUniq]
  simp

theorem serviceOf_eq_spec {a : String} (h : a.data.contains ':' = true) :
    serviceOf a = specServiceOf a := by
  unfold serviceOf specServiceOf
  rw [if_pos h]

theorem arnFor_eq_specArn (accountId region s : String) :
    arnFor accountId region s = specArn accountId region s := by
  have e1 : specRegionOmitted = regionalServices := rfl
  have e2 : specAccountOmitted = accountServices := rfl
  simp only [arnFor, specArn, e1, e2]
  by_cases h1 : s ∈ regionalServices <;> by_cases h2 : s ∈ accountServices <;>
    simp [h1, h2]

theorem distinctKeepFirst_ne_nil {l : List String} (h : l ≠ []) :
    distinctKeepFirst l ≠ [] := by
  cases l with
  | nil => exact absurd rfl h
  | cons x xs => simp [distinctKeepFirst]

theorem mem_of_mem_distinctKeepFirst {l : List String} {y : String}
    (h : y ∈ distinctKeepFirst l) : y ∈ l := by
  induction l with
  | nil => simp [distinctKeepFirst] at h
  | cons x xs ih =>
    simp only [distinctKeepFirst, List.mem_cons] at h
    rcases h with h | h
    · simp [h]
    · exact List.mem_cons_of_mem _ (ih (List.mem_of_mem_filter h))

/-- The synthesized services of a statement are the distinct service
namespaces of its actions. -/
theorem services_eq_distinct (st : Statement)
    (hcolon : ∀ act ∈ st.Action, act.data.contains ':' = true) :
    st.Action.foldl (fun accum a => insertUniq accum (serviceOf a)) []
      = distinctKeepFirst (st.Action.map specServiceOf) := by
  rw [← List.foldl_map serviceOf insertUniq, foldl_insertUniq_nil]
  congr 1
  exact List.map_congr_left fun a ha => serviceOf_eq_spec (hcolon a ha)

/-- The synthesized resource candidates are the deduplicated claim-side
ARNs of the given services. -/
theorem resources_eq_distinct (accountId region : String) (services : List String) :
    services.foldl (fun accum s => insertUniq accum (arnFor accountId region s)) []
      = distinctKeepFirst (services.map (specArn accountId region)) := by
  rw [← List.foldl_map (arnFor accountId region) insertUniq, foldl_insertUniq_nil]
  congr 1
  exact List.map_congr_left fun s _ => arnFor_eq_specArn accountId region s

/-! ## Claim theorems -/

/-- C2. Resource scope derivation: for a statement lacking a declared
resource scope whose actions all carry a service namespace, synthesis
assigns exactly the claim-side scope: the deduplicated ARNs
`arn:aws:service:region:account:*` over the distinct service namespaces,
with region blanked exactly on the region-omitted set and account
blanked exactly on the account-omitted set, scalar when a single scope
remains. -/
theorem scope_derivation_matches_spec (accountId region : String) (st : Statement)
    (hres : jsTruthy st.Resource = false) (hne : st.Action ≠ [])
    (hcolon : ∀ act ∈ st.Action, act.data.contains ':' = true) :
    (synthStatement accountId region st).1.Resource
      = specScope accountId region st.Action := by
  have hserv := services_eq_distinct st hcolon
  have hserv_ne : distinctKeepFirst (st.Action.map specServiceOf) ≠ [] :=
    distinctKeepFirst_ne_nil (by simp [List.map_eq_nil_iff]; exact hne)
  simp only [synthStatement, hres, Bool.false_eq_true, if_false, hserv,
    resources_eq_distinct, specScope]
  cases hM : distinctKeepFirst (st.Action.map specServiceOf) with
  | nil => exact absurd hM hserv_ne
  | cons r rs =>
    have h2ne : distinctKeepFirst ((r :: rs).map (specArn accountId region)) ≠ [] :=
      distinctKeepFirst_ne_nil (by simp)
    cases h2 : distinctKeepFirst ((r :: rs).map (specArn accountId region)) with
    | nil => exact absurd h2 h2ne
    | cons c cs =>
      cases cs with
      | nil => simp
      | cons c2 cs2 => simp

/-- Witness for C2: at the s3 example the code-side and claim-side scopes
agree and are the scalar `arn:aws:s3:::*`. -/
theorem scope_derivation_matches_spec_witness :
    (synthStatement "123456789012" "us-east-1"
        ⟨"Allow", ["s3:GetObject", "s3:PutObject"], none⟩).1.Resource
      = specScope "123456789012" "us-east-1" ["s3:GetObject", "s3:PutObject"]
    ∧ specScope "123456789012" "us-east-1" ["s3:GetObject", "s3:PutObject"]
      = some (.one "arn:aws:s3:::*") :=
  ⟨scope_derivation_matches_spec "123456789012" "us-east-1"
      ⟨"Allow", ["s3:GetObject", "s3:PutObject"], none⟩ (by decide) (by decide)
      (by decide),
   by decide⟩

/-- C9. Policy synthesis determinism: the synthesis step is a pure
function of the template, account identifier and region — identical
inputs yield identical synthesized templates and requested-action sets. -/
theorem synthesize_deterministic (a1 a2 r1 r2 : String) (p1 p2 : Policy)
    (ha : a1 = a2) (hr : r1 = r2) (hp : p1 = p2) :
    synthesize a1 r1 p1 = synthesize a2 r2 p2 := by
  rw [ha, hr, hp]

/-- Witness for C9 at a concrete template. -/
theorem synthesize_deterministic_witness :
    synthesize "123456789012" "us-east-1" ⟨[⟨"Allow", ["s3:GetObject"], none⟩]⟩
      = synthesize "123456789012" "us-east-1" ⟨[⟨"Allow", ["s3:GetObject"], none⟩]⟩ :=
  synthesize_deterministic _ _ _ _ _ _ rfl rfl rfl

/-- The services accumulator of the synthesis loop, as a deduplication of
the mapped service namespaces. -/
theorem services_foldl_eq (acts : List String) :
    acts.foldl (fun accum a => insertUniq accum (serviceOf a)) []
      = distinctKeepFirst (acts.map serviceOf) := by
  rw [← List.foldl_map serviceOf insertUniq, foldl_insertUniq_nil]

/-- The resources accumulator of the synthesis loop, as a deduplication of
the mapped ARNs. -/
theorem resources_foldl_eq (accountId region : String) (services : List String) :
    services.foldl (fun accum s => insertUniq accum (arnFor accountId region s)) []
      = distinctKeepFirst (services.map (arnFor accountId region)) := by
  rw [← List.foldl_map (arnFor accountId region) insertUniq, foldl_insertUniq_nil]

/-- An ARN built by the synthesis loop is never the empty string. -/
theorem arnFor_ne_empty (accountId region s : String) :
    arnFor accountId region s ≠ "" := by
  intro h
  have hlen := congrArg String.length h
  simp only [arnFor, String.length_append] at hlen
  have h8 : ("arn:aws:" : String).length = 8 := rfl
  rw [h8] at hlen
  have h0 : ("" : String).length = 0 := rfl
  rw [h0] at hlen
  omega

/-- The first component of the synthesis fold is the statement-wise map. -/
theorem synthFold_fst (a r : String) (l : List Statement) :
    ∀ acc : List Statement × List String,
      (l.foldl (fun accum st =>
          let s := synthStatement a r st
          (accum.1 ++ [s.1], s.2.foldl insertUniq accum.2)) acc).1
        = acc.1 ++ l.map (fun st => (synthStatement a r st).1) := by
  induction l with
  | nil => intro acc; simp
  | cons st sts ih =>
    intro acc
    rw [List.foldl_cons, ih]
    simp

/-- Synthesis rewrites the template statement-wise. -/
theorem synthesize_statements_eq_map (a r : String) (p : Policy) :
    (synthesize a r p).1.Statement
      = p.Statement.map (fun st => (synthStatement a r st).1) := by
  unfold synthesize
  simp [synthFold_fst]

theorem synthStatement_preserves_declared (a r : String) (st : Statement)
    (h : jsTruthy st.Resource = true) : (synthStatement a r st).1 = st := by
  simp [synthStatement, h]

theorem synthStatement_skips_actionless (a r : String) (st : Statement)
    (h : jsTruthy st.Resource = false) (hA : st.Action = []) :
    (synthStatement a r st).1 = st := by
  simp [synthStatement, h, hA]

theorem synthStatement_fills_missing (a r : String) (st : Statement)
    (h : jsTruthy st.Resource = false) (hA : st.Action ≠ []) :
    jsTruthy (synthStatement a r st).1.Resource = true
    ∧ (synthStatement a r st).1.Effect = st.Effect
    ∧ (synthStatement a r st).1.Action = st.Action := by
  have hne : distinctKeepFirst (st.Action.map serviceOf) ≠ [] :=
    distinctKeepFirst_ne_nil (by simp [List.map_eq_nil_iff]; exact hA)
  simp only [synthStatement, h, Bool.false_eq_true, if_false, services_foldl_eq,
    resources_foldl_eq]
  cases hM : distinctKeepFirst (st.Action.map serviceOf) with
  | nil => exact absurd hM hne
  | cons s ss =>
    have hne2 : distinctKeepFirst ((s :: ss).map (arnFor a r)) ≠ [] :=
      distinctKeepFirst_ne_nil (by simp)
    cases h2 : distinctKeepFirst ((s :: ss).map (arnFor a r)) with
    | nil => exact absurd h2 hne2
    | cons c cs =>
      have hc : c ∈ (s :: ss).map (arnFor a r) :=
        mem_of_mem_distinctKeepFirst (h2 ▸ List.mem_cons_self c cs)
      rcases List.mem_map.mp hc with ⟨sv, _, hsvc⟩
      cases cs with
      | nil =>
        subst hsvc
        simp [jsTruthy, arnFor_ne_empty]
      | cons c2 cs2 => simp [jsTruthy]

/-- C7 (amended). Synthesis rewrites the template statement-wise; a
statement with a truthy declared resource scope is left entirely
unchanged; a statement lacking one whose action list is non-empty has a
scope populated with effect and actions preserved; a statement lacking
one with no actions is left unchanged (and hence unscoped). -/
theorem synthesis_frame (a r : String) (p : Policy) :
    (synthesize a r p).1.Statement
        = p.Statement.map (fun st => (synthStatement a r st).1)
    ∧ (∀ st : Statement, jsTruthy st.Resource = true → (synthStatement a r st).1 = st)
    ∧ (∀ st : Statement, jsTruthy st.Resource = false → st.Action ≠ [] →
        jsTruthy (synthStatement a r st).1.Resource = true
        ∧ (synthStatement a r st).1.Effect = st.Effect
        ∧ (synthStatement a r st).1.Action = st.Action)
    ∧ (∀ st : Statement, jsTruthy st.Resource = false → st.Action = [] →
        (synthStatement a r st).1 = st) :=
  ⟨synthesize_statements_eq_map a r p,
   fun st h => synthStatement_preserves_declared a r st h,
   fun st h hA => synthStatement_fills_missing a r st h hA,
   fun st h hA => synthStatement_skips_actionless a r st h hA⟩

/-- Witness for C7 (amended): a declared scope survives unchanged, and a
missing scope over a non-empty action list is populated. -/
theorem synthesis_frame_witness :
    (synthStatement "123456789012" "us-east-1"
        ⟨"Allow", ["s3:GetObject"], some (.one "arn:aws:s3:::mybucket")⟩).1
      = ⟨"Allow", ["s3:GetObject"], some (.one "arn:aws:s3:::mybucket")⟩
    ∧ jsTruthy (synthStatement "123456789012" "us-east-1"
        ⟨"Allow", ["logs:PutLogEvents"], none⟩).1.Resource = true :=
  ⟨(synthesis_frame "123456789012" "us-east-1" ⟨[]⟩).2.1 _ (by decide),
   ((synthesis_frame "123456789012" "us-east-1" ⟨[]⟩).2.2.1 _ (by decide)
      (by decide)).1⟩

/-- Counterexample for C7 as stated: the statement `⟨"Allow", [], none⟩`
lacks a declared resource scope, yet synthesis returns the template
unchanged — no scope is ever populated for it. -/
theorem statement_without_actions_left_unscoped :
    jsTruthy (Statement.mk "Allow" [] none).Resource = false
    ∧ (synthesize "123456789012" "us-east-1" ⟨[⟨"Allow", [], none⟩]⟩).1
        = ⟨[⟨"Allow", [], none⟩]⟩ := by
  constructor
  · rfl
  · rfl

theorem distinctKeepFirst_const {c : String} : ∀ {l : List String}, l ≠ [] →
    (∀ x ∈ l, x = c) → distinctKeepFirst l = [c] := by
  intro l
  induction l with
  | nil => intro h _; exact absurd rfl h
  | cons x xs ih =>
    intro _ hall
    have hx : x = c := hall x (List.mem_cons_self x xs)
    subst hx
    cases hxs : xs with
    | nil => simp [distinctKeepFirst]
    | cons y ys =>
      have hd : distinctKeepFirst xs = [x] := by
        refine ih ?_ ?_
        · rw [hxs]; simp
        · exact fun z hz => hall z (List.mem_cons_of_mem _ hz)
      rw [hxs] at hd
      calc distinctKeepFirst (x :: y :: ys)
          = x :: (distinctKeepFirst (y :: ys)).filter (fun z => decide (z ≠ x)) := rfl
        _ = x :: ([x].filter (fun z => decide (z ≠ x))) := by rw [hd]
        _ = [x] := by simp

/-- C8 (amended): synthesis does not reject a statement whose actions
lack the `:` delimiter; every such action contributes the empty service
namespace, and a statement of only such actions receives the single
scope `arn:aws::region:account:*`. -/
theorem no_colon_actions_get_empty_namespace_scope (a r : String) (st : Statement)
    (hres : jsTruthy st.Resource = false) (hne : st.Action ≠ [])
    (hnc : ∀ act ∈ st.Action, act.data.contains ':' = false) :
    (synthStatement a r st).1.Resource
      = some (.one ("arn:aws::" ++ r ++ ":" ++ a ++ ":*")) := by
  have hmap : ∀ x ∈ st.Action.map serviceOf, x = "" := by
    intro x hx
    rcases List.mem_map.mp hx with ⟨act, hact, rfl⟩
    simp only [serviceOf, hnc act hact, Bool.false_eq_true, if_false]
  have hs : st.Action.foldl (fun accum a2 => insertUniq accum (serviceOf a2)) [] = [""] := by
    rw [services_foldl_eq]
    exact distinctKeepFirst_const (by simp [List.map_eq_nil_iff]; exact hne) hmap
  have harn : arnFor a r "" = "arn:aws::" ++ r ++ ":" ++ a ++ ":*" := by
    have h1 : ("" : String) ∉ regionalServices := by decide
    have h2 : ("" : String) ∉ accountServices := by decide
    simp only [arnFor, if_pos h1, if_pos h2]
    rw [show ("arn:aws:" ++ "" : String) = "arn:aws:" from rfl,
      show ("arn:aws:" ++ ":" : String) = "arn:aws::" from rfl]
  simp only [synthStatement, hres, Bool.false_eq_true, if_false, hs]
  simp [insertUniq, harn]

/-- Witness for C8 (amended) at a concrete two-action statement. -/
theorem no_colon_actions_witness :
    (synthStatement "123456789012" "us-east-1" ⟨"Allow", ["foo", "bar"], none⟩).1.Resource
      = some (.one ("arn:aws::" ++ "us-east-1" ++ ":" ++ "123456789012" ++ ":*")) :=
  no_colon_actions_get_empty_namespace_scope "123456789012" "us-east-1"
    ⟨"Allow", ["foo", "bar"], none⟩ (by decide) (by decide) (by decide)

/-- Counterexample for C8 as stated: the delimiterless action `"foo"` is
not rejected — synthesis succeeds and assigns a scope with an empty
service namespace. -/
theorem no_colon_action_not_rejected :
    (synthStatement "123456789012" "us-east-1" ⟨"Allow", ["foo"], none⟩).1.Resource
      = some (.one "arn:aws::us-east-1:123456789012:*") := by decide

/-! ## Driver lemmas -/

theorem pollPolicy_effects (rs : List (Except String FetchedPolicy)) :
    ∀ e ∈ (pollPolicy rs).2, e = Effect.getUserPolicy := by
  induction rs with
  | nil => intro e he; simp [pollPolicy] at he
  | cons r rest ih =>
    intro e he
    cases r with
    | ok fp =>
      simp [pollPolicy] at he
      simp [he]
    | error s =>
      simp only [pollPolicy, List.mem_cons] at he
      rcases he with he | he
      · exact he
      · exact ih e he

theorem policyTrace_effects (env : InstallEnv) :
    ∀ e ∈ policyTrace env, e = Effect.putUserPolicy ∨ e = Effect.logPolicyError
      ∨ e = Effect.getUserPolicy := by
  intro e he
  unfold policyTrace at he
  rw [List.mem_append] at he
  rcases he with he | he
  · rcases hpp : env.putPolicyResult with e2 | u <;> rw [hpp] at he <;>
      simp at he <;> tauto
  · exact Or.inr (Or.inr (pollPolicy_effects _ e he))

theorem bucketStep_effects (env : InstallEnv) :
    ∀ e ∈ (bucketStep env).2, e = Effect.headBucket ∨ e = Effect.createBucket := by
  cases hb : env.headBucket <;> intro e he <;> simp [bucketStep, hb] at he <;> tauto

theorem bucketStep_headBucket_mem (env : InstallEnv) :
    Effect.headBucket ∈ (bucketStep env).2 := by
  cases hb : env.headBucket <;> simp [bucketStep, hb]

theorem bucketStep_createBucket_mem (env : InstallEnv) (e2 : String)
    (h : env.headBucket = .error e2) :
    Effect.createBucket ∈ (bucketStep env).2 := by
  simp [bucketStep, h]

theorem bucketStep_count_createStack (env : InstallEnv) :
    (bucketStep env).2.count Effect.createStack = 0 := by
  rw [List.count_eq_zero]
  intro hmem
  rcases bucketStep_effects env _ hmem with h | h <;> simp at h

theorem andThen_trace (res : Except String Unit) (eff tr : List Effect)
    (k : List Effect → InstallOutcome × List Effect)
    (hk : ∀ tr2, ∃ r, (k tr2).2 = tr2 ++ r) :
    ∃ r, (andThen res eff tr k).2 = tr ++ eff ++ r := by
  cases res with
  | error e => exact ⟨[], by simp [andThen]⟩
  | ok u =>
    rcases hk (tr ++ eff) with ⟨r, hr⟩
    exact ⟨r, by simp [andThen, hr]⟩

theorem andThen_trace_ext (res : Except String Unit) (eff tr : List Effect)
    (k : List Effect → InstallOutcome × List Effect)
    (hk : ∀ tr2, ∃ r, (k tr2).2 = tr2 ++ r) :
    ∃ r, (andThen res eff tr k).2 = tr ++ r := by
  rcases andThen_trace res eff tr k hk with ⟨r, hr⟩
  exact ⟨eff ++ r, by simp [hr]⟩

/-- Every trace the creation path produces extends the incoming trace
with the bucket-probe effects first. -/
theorem creationPath_trace_shape (env : InstallEnv) (tr : List Effect) :
    ∃ rest, (creationPath env tr).2 = tr ++ (bucketStep env).2 ++ rest := by
  unfold creationPath
  apply andThen_trace
  intro t1
  apply andThen_trace_ext
  intro t2
  apply andThen_trace_ext
  intro t3
  apply andThen_trace_ext
  intro t4
  apply andThen_trace_ext
  intro t5
  apply andThen_trace_ext
  intro t6
  apply andThen_trace_ext
  intro t7
  cases waitForStackStatus env.polls "CREATE_IN_PROGRESS" with
  | none => exact ⟨[], by simp⟩
  | some stack =>
    by_cases hs : stack.StackStatus = "CREATE_COMPLETE"
    · exact ⟨[.writeRecord], by simp [hs]⟩
    · exact ⟨[], by simp [hs]⟩

/-- Number of occurrences of one effect in a trace. -/
def countEff (e : Effect) : List Effect → Nat
  | [] => 0
  | x :: xs => (if x = e then 1 else 0) + countEff e xs

theorem countEff_append (e : Effect) (l1 l2 : List Effect) :
    countEff e (l1 ++ l2) = countEff e l1 + countEff e l2 := by
  induction l1 with
  | nil => simp [countEff]
  | cons x xs ih => simp [countEff, ih, Nat.add_assoc]

theorem countEff_eq_zero {e : Effect} {l : List Effect}
    (h : ∀ x ∈ l, x ≠ e) : countEff e l = 0 := by
  induction l with
  | nil => rfl
  | cons x xs ih =>
    rw [countEff, if_neg (h x (List.mem_cons_self x xs)), Nat.zero_add]
    exact ih fun y hy => h y (List.mem_cons_of_mem _ hy)

theorem bucketStep_countEff_createStack (env : InstallEnv) :
    countEff Effect.createStack (bucketStep env).2 = 0 :=
  countEff_eq_zero fun x hx => by
    rcases bucketStep_effects env x hx with h | h <;> simp [h]

theorem bucketStep_no_writeRecord (env : InstallEnv) :
    Effect.writeRecord ∉ (bucketStep env).2 := fun hmem => by
  rcases bucketStep_effects env _ hmem with h | h <;> simp at h

theorem preTrace_effects (env : InstallEnv) (fp : FetchedPolicy) :
    ∀ e ∈ preTrace env fp,
      e = Effect.putUserPolicy ∨ e = Effect.logPolicyError ∨ e = Effect.getUserPolicy
      ∨ e = Effect.logMissingActions ∨ e = Effect.describeStacks := by
  intro e he
  unfold preTrace at he
  rw [List.mem_append, List.mem_append] at he
  rcases he with (he | he) | he
  · rcases policyTrace_effects env e he with h | h | h <;> tauto
  · split at he
    · simp at he
    · simp at he; tauto
  · simp at he; tauto

theorem preTrace_no_writeRecord (env : InstallEnv) (fp : FetchedPolicy) :
    Effect.writeRecord ∉ preTrace env fp := fun hmem => by
  rcases preTrace_effects env fp _ hmem with h | h | h | h | h <;> simp at h

theorem preTrace_countEff_createStack (env : InstallEnv) (fp : FetchedPolicy) :
    countEff Effect.createStack (preTrace env fp) = 0 :=
  countEff_eq_zero fun x hx => by
    rcases preTrace_effects env fp x hx with h | h | h | h | h <;> simp [h]

/-- A successful creation path issues `createStack` exactly once beyond
whatever the incoming trace already held. -/
theorem creationPath_ok_countEff (env : InstallEnv) (tr : List Effect) (st : Stack)
    (h : (creationPath env tr).1 = .ok st) :
    countEff Effect.createStack (creationPath env tr).2
      = countEff Effect.createStack tr + 1 := by
  unfold creationPath at h ⊢
  cases hbs : (bucketStep env).1 with
  | error e1 => rw [hbs] at h; simp [andThen] at h
  | ok u1 =>
    rw [hbs] at h
    simp only [andThen] at h ⊢
    cases hn : env.npmPack with
    | error e2 => rw [hn] at h; simp [andThen] at h
    | ok u2 =>
      rw [hn] at h
      simp only [andThen] at h ⊢
      cases hpk : env.packResult with
      | error e3 => rw [hpk] at h; simp [andThen] at h
      | ok u3 =>
        rw [hpk] at h
        simp only [andThen] at h ⊢
        cases hul : env.unlinkResult with
        | error e4 => rw [hul] at h; simp [andThen] at h
        | ok u4 =>
          rw [hul] at h
          simp only [andThen] at h ⊢
          cases hus : uploadsResult env with
          | error e5 => rw [hus] at h; simp [andThen] at h
          | ok u5 =>
            rw [hus] at h
            simp only [andThen] at h ⊢
            cases hv : env.validateResult with
            | error e6 => rw [hv] at h; simp [andThen] at h
            | ok u6 =>
              rw [hv] at h
              simp only [andThen] at h ⊢
              cases hcs : env.createStackResult with
              | error e7 => rw [hcs] at h; simp [andThen, Except.map] at h
              | ok sid =>
                rw [hcs] at h
                simp only [andThen, Except.map] at h ⊢
                cases hw : waitForStackStatus env.polls "CREATE_IN_PROGRESS" with
                | none => rw [hw] at h; simp at h
                | some stack =>
                  rw [hw] at h
                  by_cases hs : stack.StackStatus = "CREATE_COMPLETE"
                  · simp [hs, countEff_append, countEff, bucketStep_countEff_createStack]
                  · simp [hs] at h

/-- The record quokka.json is written only when the poll ends at
`CREATE_COMPLETE`, in which case the creation path succeeds with that
descriptor. -/
theorem creationPath_record (env : InstallEnv) (tr : List Effect)
    (htr : Effect.writeRecord ∉ tr)
    (h : Effect.writeRecord ∈ (creationPath env tr).2) :
    ∃ f, waitForStackStatus env.polls "CREATE_IN_PROGRESS" = some f
      ∧ f.StackStatus = "CREATE_COMPLETE" ∧ (creationPath env tr).1 = .ok f := by
  unfold creationPath at h ⊢
  cases hbs : (bucketStep env).1 with
  | error e1 =>
    rw [hbs] at h
    simp [andThen, List.mem_append, htr, bucketStep_no_writeRecord env] at h
  | ok u1 =>
    rw [hbs] at h
    simp only [andThen] at h ⊢
    cases hn : env.npmPack with
    | error e2 =>
      rw [hn] at h
      simp [andThen, List.mem_append, htr, bucketStep_no_writeRecord env] at h
    | ok u2 =>
      rw [hn] at h
      simp only [andThen] at h ⊢
      cases hpk : env.packResult with
      | error e3 =>
        rw [hpk] at h
        simp [andThen, List.mem_append, htr, bucketStep_no_writeRecord env] at h
      | ok u3 =>
        rw [hpk] at h
        simp only [andThen] at h ⊢
        cases hul : env.unlinkResult with
        | error e4 =>
          rw [hul] at h
          simp [andThen, List.mem_append, htr, bucketStep_no_writeRecord env] at h
        | ok u4 =>
          rw [hul] at h
          simp only [andThen] at h ⊢
          cases hus : uploadsResult env with
          | error e5 =>
            rw [hus] at h
            simp [andThen, List.mem_append, htr, bucketStep_no_writeRecord env] at h
          | ok u5 =>
            rw [hus] at h
            simp only [andThen] at h ⊢
            cases hv : env.validateResult with
            | error e6 =>
              rw [hv] at h
              simp [andThen, List.mem_append, htr, bucketStep_no_writeRecord env] at h
            | ok u6 =>
              rw [hv] at h
              simp only [andThen] at h ⊢
              cases hcs : env.createStackResult with
              | error e7 =>
                rw [hcs] at h
                simp [andThen, Except.map, List.mem_append, htr,
                  bucketStep_no_writeRecord env] at h
              | ok sid =>
                rw [hcs] at h
                simp only [andThen, Except.map] at h ⊢
                cases hw : waitForStackStatus env.polls "CREATE_IN_PROGRESS" with
                | none =>
                  rw [hw] at h
                  simp [List.mem_append, htr, bucketStep_no_writeRecord env] at h
                | some stack =>
                  rw [hw] at h
                  by_cases hs : stack.StackStatus = "CREATE_COMPLETE"
                  · refine ⟨stack, rfl, hs, ?_⟩
                    simp [hs]
                  · simp [hs, List.mem_append, htr, bucketStep_no_writeRecord env] at h

/-- When every step up to stack creation succeeds and the poll ends at a
status other than `CREATE_COMPLETE`, the creation path throws. -/
theorem creationPath_allok_bad_status (env : InstallEnv) (tr : List Effect)
    (sid : String) (f : Stack)
    (hbs : (bucketStep env).1 = .ok ()) (hn : env.npmPack = .ok ())
    (hpk : env.packResult = .ok ()) (hul : env.unlinkResult = .ok ())
    (hus : uploadsResult env = .ok ()) (hv : env.validateResult = .ok ())
    (hcs : env.createStackResult = .ok sid)
    (hw : waitForStackStatus env.polls "CREATE_IN_PROGRESS" = some f)
    (hf : f.StackStatus ≠ "CREATE_COMPLETE") :
    (creationPath env tr).1 = .err "CloudFormation not created" := by
  unfold creationPath
  rw [hbs]; simp only [andThen]
  rw [hn]; simp only [andThen]
  rw [hpk]; simp only [andThen]
  rw [hul]; simp only [andThen]
  rw [hus]; simp only [andThen]
  rw [hv]; simp only [andThen]
  rw [hcs]; simp only [andThen, Except.map]
  rw [hw]
  simp [hf]

/-- The outcome of the creation path does not depend on the incoming
trace. -/
theorem creationPath_fst_trace_indep (env : InstallEnv) (tr tr2 : List Effect) :
    (creationPath env tr).1 = (creationPath env tr2).1 := by
  unfold creationPath
  cases hbs : (bucketStep env).1 with
  | error e1 => simp [andThen]
  | ok u1 =>
    simp only [andThen]
    cases hn : env.npmPack with
    | error e2 => simp [andThen]
    | ok u2 =>
      simp only [andThen]
      cases hpk : env.packResult with
      | error e3 => simp [andThen]
      | ok u3 =>
        simp only [andThen]
        cases hul : env.unlinkResult with
        | error e4 => simp [andThen]
        | ok u4 =>
          simp only [andThen]
          cases hus : uploadsResult env with
          | error e5 => simp [andThen]
          | ok u5 =>
            simp only [andThen]
            cases hv : env.validateResult with
            | error e6 => simp [andThen]
            | ok u6 =>
              simp only [andThen]
              cases hcs : env.createStackResult with
              | error e7 => simp [andThen, Except.map]
              | ok sid =>
                simp only [andThen, Except.map]
                cases hw : waitForStackStatus env.polls "CREATE_IN_PROGRESS" with
                | none => simp
                | some stack =>
                  by_cases hs : stack.StackStatus = "CREATE_COMPLETE" <;> simp [hs]

theorem installQuokka_poll_diverge (env : InstallEnv)
    (hp : (pollPolicy env.getPolicyResults).1 = none) :
    installQuokka env = (.diverge, policyTrace env) := by
  simp [installQuokka, hp]

theorem installQuokka_found (env : InstallEnv) (fp : FetchedPolicy) (st : Stack)
    (hp : (pollPolicy env.getPolicyResults).1 = some fp)
    (hd : env.describeStack = .ok st) :
    installQuokka env = (.alreadyInstalled st, preTrace env fp) := by
  simp [installQuokka, hp, hd]

theorem installQuokka_absent (env : InstallEnv) (fp : FetchedPolicy) (e : String)
    (hp : (pollPolicy env.getPolicyResults).1 = some fp)
    (hd : env.describeStack = .error e) :
    installQuokka env = creationPath env (preTrace env fp) := by
  simp [installQuokka, hp, hd]

theorem pollPolicy_some_mem (rs : List (Except String FetchedPolicy))
    (fp : FetchedPolicy) (h : (pollPolicy rs).1 = some fp) :
    Effect.getUserPolicy ∈ (pollPolicy rs).2 := by
  induction rs with
  | nil => simp [pollPolicy] at h
  | cons r rest ih =>
    cases r with
    | ok fp2 => simp [pollPolicy]
    | error s => simp [pollPolicy]

theorem installQuokka_trace_extends (env : InstallEnv) :
    ∃ rest, (installQuokka env).2 = policyTrace env ++ rest := by
  cases hp : (pollPolicy env.getPolicyResults).1 with
  | none => exact ⟨[], by rw [installQuokka_poll_diverge env hp]; simp⟩
  | some fp =>
    cases hd : env.describeStack with
    | ok s =>
      refine ⟨(if (missingActions (synthesize env.accountId awsRegion env.policy).2
          fp.Statement).isEmpty then [] else [Effect.logMissingActions])
          ++ [Effect.describeStacks], ?_⟩
      rw [installQuokka_found env fp s hp hd]
      unfold preTrace
      rw [List.append_assoc]
    | error e2 =>
      rcases creationPath_trace_shape env (preTrace env fp) with ⟨rest, hr⟩
      refine ⟨(if (missingActions (synthesize env.accountId awsRegion env.policy).2
          fp.Statement).isEmpty then [] else [Effect.logMissingActions])
          ++ ([Effect.describeStacks] ++ ((bucketStep env).2 ++ rest)), ?_⟩
      rw [installQuokka_absent env fp e2 hp hd, hr]
      unfold preTrace
      simp only [List.append_assoc]

/-- C1. Idempotent install: if the first invocation succeeds and creates
the stack with final descriptor `st`, and the probe of the second invocation
finds that descriptor, then the second invocation surfaces it unchanged
and issues none of the creation calls — overall exactly one
`createStack` is issued across the two invocations. -/
theorem install_idempotent (env1 env2 : InstallEnv) (fp : FetchedPolicy) (st : Stack)
    (h1 : (installQuokka env1).1 = .ok st)
    (hp2 : (pollPolicy env2.getPolicyResults).1 = some fp)
    (hd2 : env2.describeStack = .ok st) :
    (installQuokka env2).1 = .alreadyInstalled st
    ∧ countEff Effect.createStack (installQuokka env1).2 = 1
    ∧ Effect.createStack ∉ (installQuokka env2).2
    ∧ Effect.createBucket ∉ (installQuokka env2).2
    ∧ Effect.npmPack ∉ (installQuokka env2).2
    ∧ Effect.packLambda ∉ (installQuokka env2).2
    ∧ Effect.putObjectLambda ∉ (installQuokka env2).2
    ∧ Effect.putObjectTemplate ∉ (installQuokka env2).2 := by
  have hout2 : (installQuokka env2).1 = .alreadyInstalled st := by
    rw [installQuokka_found env2 fp st hp2 hd2]
  have htr2 : (installQuokka env2).2 = preTrace env2 fp := by
    rw [installQuokka_found env2 fp st hp2 hd2]
  have hcount : countEff Effect.createStack (installQuokka env1).2 = 1 := by
    cases hp1 : (pollPolicy env1.getPolicyResults).1 with
    | none =>
      rw [installQuokka_poll_diverge env1 hp1] at h1
      simp at h1
    | some fp1 =>
      cases hd1 : env1.describeStack with
      | ok s1 =>
        rw [installQuokka_found env1 fp1 s1 hp1 hd1] at h1
        simp at h1
      | error e1 =>
        rw [installQuokka_absent env1 fp1 e1 hp1 hd1] at h1 ⊢
        rw [creationPath_ok_countEff env1 _ st h1, preTrace_countEff_createStack]
  refine ⟨hout2, hcount, ?_, ?_, ?_, ?_, ?_, ?_⟩ <;>
    · rw [htr2]
      intro hmem
      rcases preTrace_effects env2 fp _ hmem with h | h | h | h | h <;> simp at h

/-- C4 (amended). A rejected policy write is logged and otherwise
ignored: the outcome is the same as if the write had succeeded, the
failure is logged, and the verification loop still runs. -/
theorem policy_write_failure_ignored (env : InstallEnv) (e : String)
    (h : env.putPolicyResult = .error e) :
    (installQuokka env).1
      = (installQuokka { env with putPolicyResult := Except.ok () }).1
    ∧ Effect.logPolicyError ∈ (installQuokka env).2
    ∧ (∀ fp, (pollPolicy env.getPolicyResults).1 = some fp →
        Effect.getUserPolicy ∈ (installQuokka env).2) := by
  refine ⟨?_, ?_, ?_⟩
  · set env2 : InstallEnv := { env with putPolicyResult := Except.ok () } with henv2
    have hg : env2.getPolicyResults = env.getPolicyResults := by rw [henv2]
    have hds : env2.describeStack = env.describeStack := by rw [henv2]
    cases hp : (pollPolicy env.getPolicyResults).1 with
    | none =>
      rw [installQuokka_poll_diverge env hp,
        installQuokka_poll_diverge env2 (by rw [hg]; exact hp)]
    | some fp =>
      cases hd : env.describeStack with
      | ok s =>
        rw [installQuokka_found env fp s hp hd,
          installQuokka_found env2 fp s (by rw [hg]; exact hp) (by rw [hds]; exact hd)]
      | error e2 =>
        rw [installQuokka_absent env fp e2 hp hd,
          installQuokka_absent env2 fp e2 (by rw [hg]; exact hp) (by rw [hds]; exact hd)]
        have h1 : creationPath env2 (preTrace env2 fp)
            = creationPath env (preTrace env2 fp) := by
          rw [henv2]
          exact rfl
        rw [h1]
        exact creationPath_fst_trace_indep env _ _
  · rcases installQuokka_trace_extends env with ⟨rest, hr⟩
    rw [hr, List.mem_append]
    left
    simp [policyTrace, h]
  · intro fp hp
    rcases installQuokka_trace_extends env with ⟨rest, hr⟩
    rw [hr, List.mem_append]
    left
    rw [policyTrace, List.mem_append]
    exact Or.inr (pollPolicy_some_mem _ fp hp)

/-- C10. Probe-error conflation: any error from the `describeStacks`
probe sends the driver down the creation path (the staging-bucket probe
is issued), and any error from `headBucket` leads straight to
`createBucket` — no error kind is treated as a separate fatal
condition. -/
theorem probe_errors_conflated (env : InstallEnv) (fp : FetchedPolicy) (e : String)
    (hp : (pollPolicy env.getPolicyResults).1 = some fp)
    (hd : env.describeStack = .error e) :
    Effect.headBucket ∈ (installQuokka env).2
    ∧ ∀ e2, env.headBucket = .error e2 → Effect.createBucket ∈ (installQuokka env).2 := by
  rw [installQuokka_absent env fp e hp hd]
  rcases creationPath_trace_shape env (preTrace env fp) with ⟨rest, hr⟩
  rw [hr]
  constructor
  · have hm := bucketStep_headBucket_mem env
    simp [List.mem_append, hm]
  · intro e2 he2
    have hm := bucketStep_createBucket_mem env e2 he2
    simp [List.mem_append, hm]

/-- C6. Install terminal-state correctness: the `quokka.json` record is
written only when the poll ends at `CREATE_COMPLETE` (first conjunct);
and when the creation path runs to the poll and the final status is not
`CREATE_COMPLETE`, the driver throws and no record is written (second
conjunct). -/
theorem install_terminal_state (env : InstallEnv) :
    (Effect.writeRecord ∈ (installQuokka env).2 →
      ∃ f, waitForStackStatus env.polls "CREATE_IN_PROGRESS" = some f
        ∧ f.StackStatus = "CREATE_COMPLETE" ∧ (installQuokka env).1 = .ok f)
    ∧ (∀ fp e sid f,
        (pollPolicy env.getPolicyResults).1 = some fp →
        env.describeStack = .error e →
        (bucketStep env).1 = .ok () →
        env.npmPack = .ok () → env.packResult = .ok () → env.unlinkResult = .ok () →
        uploadsResult env = .ok () →
        env.validateResult = .ok () → env.createStackResult = .ok sid →
        waitForStackStatus env.polls "CREATE_IN_PROGRESS" = some f →
        f.StackStatus ≠ "CREATE_COMPLETE" →
        (installQuokka env).1 = .err "CloudFormation not created"
        ∧ Effect.writeRecord ∉ (installQuokka env).2) := by
  have hrec : Effect.writeRecord ∈ (installQuokka env).2 →
      ∃ f, waitForStackStatus env.polls "CREATE_IN_PROGRESS" = some f
        ∧ f.StackStatus = "CREATE_COMPLETE" ∧ (installQuokka env).1 = .ok f := by
    intro hmem
    cases hp : (pollPolicy env.getPolicyResults).1 with
    | none =>
      rw [installQuokka_poll_diverge env hp] at hmem
      exfalso
      rcases policyTrace_effects env _ hmem with h | h | h <;> simp at h
    | some fp =>
      cases hd : env.describeStack with
      | ok s =>
        rw [installQuokka_found env fp s hp hd] at hmem
        exact absurd hmem (preTrace_no_writeRecord env fp)
      | error e =>
        rw [installQuokka_absent env fp e hp hd] at hmem ⊢
        exact creationPath_record env _ (preTrace_no_writeRecord env fp) hmem
  refine ⟨hrec, ?_⟩
  intro fp e sid f hp hd hb hn hpk hu hus hv hcs hw hf
  have heq := installQuokka_absent env fp e hp hd
  have hout : (installQuokka env).1 = .err "CloudFormation not created" := by
    rw [heq]
    exact creationPath_allok_bad_status env _ sid f hb hn hpk hu hus hv hcs hw hf
  refine ⟨hout, fun hmem => ?_⟩
  rcases hrec hmem with ⟨f2, _, _, hok⟩
  rw [hout] at hok
  exact absurd hok (by simp)

/-! ## Concrete environments -/

/-- A stack descriptor in the success terminal state. -/
def okStack : Stack :=
  ⟨"arn:aws:cloudformation:us-east-1:123456789012:stack/Quokka/abc", "Quokka",
    "CREATE_COMPLETE", "2017-01-01T00:00:00Z",
    [⟨"ApiUrl", "https://api.example.com", some "Gateway endpoint"⟩]⟩

/-- The same stack while creation is still in progress. -/
def wipCreate : Stack :=
  ⟨"arn:aws:cloudformation:us-east-1:123456789012:stack/Quokka/abc", "Quokka",
    "CREATE_IN_PROGRESS", "2017-01-01T00:00:00Z", []⟩

/-- The same stack after a failed creation. -/
def badStack : Stack :=
  ⟨"arn:aws:cloudformation:us-east-1:123456789012:stack/Quokka/abc", "Quokka",
    "ROLLBACK_COMPLETE", "2017-01-01T00:00:00Z", []⟩

/-- A fresh-account install environment in which every backend call
succeeds and the stack does not exist yet. -/
def baseEnv : InstallEnv where
  accountId := "123456789012"
  userName := "quokka-admin"
  policy := ⟨[⟨"Allow", ["s3:GetObject"], none⟩]⟩
  putPolicyResult := .ok ()
  getPolicyResults := [.ok ⟨[⟨.arr ["s3:GetObject"]⟩]⟩]
  describeStack := .error "Stack with id Quokka does not exist"
  headBucket := .error "NotFound"
  createBucket := .ok ()
  npmPack := .ok ()
  packResult := .ok ()
  unlinkResult := .ok ()
  uploadLambda := .ok ()
  uploadTemplate := .ok ()
  validateResult := .ok ()
  createStackResult := .ok "arn:aws:cloudformation:us-east-1:123456789012:stack/Quokka/abc"
  polls := [wipCreate, okStack]

/-- The second-invocation environment: identical backend, but the stack
now exists. -/
def foundEnv : InstallEnv := { baseEnv with describeStack := .ok okStack }

/-- An environment whose stack creation ends in `ROLLBACK_COMPLETE`. -/
def rollbackEnv : InstallEnv := { baseEnv with polls := [wipCreate, badStack] }

/-- An environment whose policy write is rejected by the backend. -/
def deniedEnv : InstallEnv := { baseEnv with
  putPolicyResult := .error "AccessDenied"
  describeStack := .ok okStack }

/-- An environment whose stored policy grants none of the requested
actions. -/
def noGrantEnv : InstallEnv := { baseEnv with getPolicyResults := [.ok ⟨[]⟩] }

/-- Witness for C1: a fresh install followed by a second install that
finds the stack. -/
theorem install_idempotent_witness :
    (installQuokka foundEnv).1 = .alreadyInstalled okStack
    ∧ countEff Effect.createStack (installQuokka baseEnv).2 = 1
    ∧ Effect.createStack ∉ (installQuokka foundEnv).2 := by
  have h := install_idempotent baseEnv foundEnv
    ⟨[⟨.arr ["s3:GetObject"]⟩]⟩ okStack (by decide) (by decide) (by decide)
  exact ⟨h.1, h.2.1, h.2.2.1⟩

/-- Witness for C6: when the poll ends at `ROLLBACK_COMPLETE` the driver
throws and writes no record. -/
theorem install_terminal_state_witness :
    (installQuokka rollbackEnv).1 = .err "CloudFormation not created"
    ∧ Effect.writeRecord ∉ (installQuokka rollbackEnv).2 :=
  (install_terminal_state rollbackEnv).2
    ⟨[⟨.arr ["s3:GetObject"]⟩]⟩ "Stack with id Quokka does not exist"
    "arn:aws:cloudformation:us-east-1:123456789012:stack/Quokka/abc" badStack
    (by decide) (by decide) (by decide) (by decide) (by decide) (by decide) (by decide)
    (by decide) (by decide) (by decide) (by decide)

/-- Witness for C10: a probe failure plus a bucket-probe failure lead to
`headBucket` and then `createBucket`. -/
theorem probe_errors_conflated_witness :
    Effect.headBucket ∈ (installQuokka baseEnv).2
    ∧ Effect.createBucket ∈ (installQuokka baseEnv).2 := by
  have h := probe_errors_conflated baseEnv ⟨[⟨.arr ["s3:GetObject"]⟩]⟩
    "Stack with id Quokka does not exist" (by decide) (by decide)
  exact ⟨h.1, h.2 "NotFound" (by decide)⟩

/-- Counterexample for C4 as stated: with the policy write rejected, the
driver does not fail — it proceeds to verification and beyond. -/
theorem policy_write_failure_not_fatal :
    deniedEnv.putPolicyResult = .error "AccessDenied"
    ∧ (installQuokka deniedEnv).1 = .alreadyInstalled okStack
    ∧ Effect.getUserPolicy ∈ (installQuokka deniedEnv).2 := by decide

/-- Witness for C4 (amended), at the same rejected-write environment. -/
theorem policy_write_failure_ignored_witness :
    (installQuokka deniedEnv).1
      = (installQuokka { deniedEnv with putPolicyResult := Except.ok () }).1
    ∧ Effect.logPolicyError ∈ (installQuokka deniedEnv).2 := by
  have h := policy_write_failure_ignored deniedEnv "AccessDenied" (by decide)
  exact ⟨h.1, h.2.1⟩

/-- C5 at its failing input: the fetched policy grants nothing, the
set difference is non-empty, yet the driver only logs it and goes on to
create the stack. -/
theorem missing_actions_only_logged :
    missingActions
        (synthesize "123456789012" awsRegion ⟨[⟨"Allow", ["s3:GetObject"], none⟩]⟩).2 []
      = ["s3:GetObject"]
    ∧ Effect.logMissingActions ∈ (installQuokka noGrantEnv).2
    ∧ (installQuokka noGrantEnv).1 = .ok okStack
    ∧ Effect.createStack ∈ (installQuokka noGrantEnv).2 := by decide

/-- C3 at its failing input: deletion is observed to reach
`DELETE_COMPLETE`, yet `uninstallQuokka` throws, because the final check
reads the status of the descriptor fetched before `deleteStack`. -/
theorem uninstall_throws_despite_delete_complete :
    waitForStackStatus
        [⟨"sid", "Quokka", "DELETE_IN_PROGRESS", "t0", []⟩,
          ⟨"sid", "Quokka", "DELETE_COMPLETE", "t0", []⟩] "DELETE_IN_PROGRESS"
      = some ⟨"sid", "Quokka", "DELETE_COMPLETE", "t0", []⟩
    ∧ uninstallQuokka
        ⟨.ok ⟨"sid", "Quokka", "CREATE_COMPLETE", "t0", []⟩, .ok (),
          [⟨"sid", "Quokka", "DELETE_IN_PROGRESS", "t0", []⟩,
            ⟨"sid", "Quokka", "DELETE_COMPLETE", "t0", []⟩]⟩
      = .err "CloudFormation not deleted" := by decide

end Quokka
